import Mathlib

/-!
Verification development for the sidebar-group agent (spinny).

The definitions below are a shallow embedding of the TypeScript sources:

* `src/services/agent/tools/sidebarGroups.ts` — group orchestration
  (`handleSidebarRequest`, `joinSidebarGroup`, `declineSidebarGroup`,
  `addUsersToSidebarGroup`), command grammar (`parseMentions`,
  `parseSidebarCommand`, `isPrivateGroupCommand`,
  `parsePrivateGroupCommand`).
* `src/services/helpers/usernameResolver.ts` — `resolveUsernamesToInboxIds`.
* `src/store.ts` — the DM conversation state store (`getDMState`,
  `cleanupOldDMStates`).
* `src/index.ts` — the intent dispatch for quick actions.

Remote platform calls (XMTP client operations) are modelled by explicit
environment records that fix the outcome of each call; each outcome is an
`Except JsError` value, where an `error` models a thrown exception.  The
functions return, beside their result string, the updated local state and a
trace of the remote calls they performed.
-/

namespace Spinny

/-- Model of a thrown JavaScript error object: `message` and `code` may each
be absent (`undefined`). -/
structure JsError where
  message : Option String
  code : Option String
deriving Repr, DecidableEq

/-- Whitespace class of JavaScript regular expressions (`\s`) and of
`String.prototype.trim`, restricted to the code points that can actually
appear here: space, tab, line feed, vertical tab, form feed, carriage
return, no-break space, and the two Unicode line separators. -/
def isJsWS (c : Char) : Bool :=
  c == ' ' || c == '\t' || c == '\n' || c == '\x0b' || c == '\x0c' ||
  c == '\r' || c == '\u00A0' || c == '\u2028' || c == '\u2029'

/-- Line terminators, which `.` does not match in a JavaScript regex
without the `s` flag. -/
def isLineTerm (c : Char) : Bool :=
  c == '\n' || c == '\r' || c == '\u2028' || c == '\u2029'

theorem isLineTerm_isJsWS {c : Char} (h : isLineTerm c = true) : isJsWS c = true := by
  simp only [isLineTerm, Bool.or_eq_true, beq_iff_eq] at h
  simp only [isJsWS, Bool.or_eq_true, beq_iff_eq]
  tauto

/-- Model of `String.prototype.trim` on character lists: strip leading and
trailing whitespace. -/
def trimL (cs : List Char) : List Char :=
  ((cs.dropWhile isJsWS).reverse.dropWhile isJsWS).reverse

/-- Model of `String.prototype.trim`. -/
def trimJS (s : String) : String :=
  String.mk (trimL s.toList)

/-- Model of `String.prototype.toLowerCase` (ASCII range suffices here). -/
def lowerJS (s : String) : String :=
  String.mk (s.toList.map Char.toLower)

/-- Model of `String.prototype.includes` on character lists: does `pat`
occur as a contiguous run inside `hay`? -/
def containsSub (hay pat : List Char) : Bool :=
  match hay with
  | [] => pat.isEmpty
  | _ :: t => pat.isPrefixOf hay || containsSub t pat

/-- Model of `String.prototype.includes`. -/
def jsIncludes (s pat : String) : Bool :=
  containsSub s.toList pat.toList

theorem isPrefixOf_append_self (l r : List Char) : l.isPrefixOf (l ++ r) = true := by
  induction l with
  | nil => simp [List.isPrefixOf]
  | cons a as ih => simp [List.isPrefixOf, ih]

theorem containsSub_of_split (a pat b : List Char) :
    containsSub (a ++ pat ++ b) pat = true := by
  induction a with
  | nil =>
    cases pat with
    | nil => cases b <;> simp [containsSub, List.isEmpty, List.isPrefixOf]
    | cons p ps => simp [containsSub, isPrefixOf_append_self (p :: ps) b]
  | cons x xs ih =>
    simp only [List.cons_append, containsSub, List.append_eq, ih, Bool.or_true]

theorem jsIncludes_of_split (l pat r : String) :
    jsIncludes (l ++ pat ++ r) pat = true := by
  have h := containsSub_of_split l.toList pat.toList r.toList
  rw [List.append_assoc] at h
  simpa [jsIncludes, String.toList] using h

/-- Character class `[a-zA-Z0-9.-]` of the mention regex in
`parseMentions` (`sidebarGroups.ts`). -/
def isMentionChar (c : Char) : Bool :=
  ('a' ≤ c && c ≤ 'z') || ('A' ≤ c && c ≤ 'Z') || ('0' ≤ c && c ≤ '9') ||
  c == '.' || c == '-'

/-- The global-match loop of `parseMentions`: repeatedly find an `@`
followed by a non-empty maximal run of mention characters, record the run,
and resume scanning after it.  This is the semantics of
`content.match(/@([a-zA-Z0-9.-]+)/g)` iterated with `exec`. -/
theorem dropWhile_len_lt_succ (p : Char → Bool) (l : List Char) :
    (List.dropWhile p l).length < l.length + 1 :=
  Nat.lt_succ_of_le ((List.dropWhile_suffix p).sublist.length_le)

def scanMentions (cs : List Char) : List String :=
  match cs with
  | [] => []
  | c :: rest =>
    if c = '@' then
      if (rest.takeWhile isMentionChar).isEmpty then scanMentions rest
      else String.mk (rest.takeWhile isMentionChar) ::
        scanMentions (rest.dropWhile isMentionChar)
    else scanMentions rest
termination_by cs.length
decreasing_by
  all_goals simp_wf
  all_goals first
    | omega
    | exact dropWhile_len_lt_succ isMentionChar _

/-- Embedding of `parseMentions` (`sidebarGroups.ts`): the guard
`if (!content ...) return []` makes the empty string (falsy) return `[]`;
otherwise the regex loop runs. -/
def parseMentions (content : String) : List String :=
  if content = "" then [] else scanMentions content.toList

/-- Spec-side description of mention extraction, written from the words of
the specification: every substring matching `@` followed by one or more
mention characters, in order of occurrence, duplicates preserved.  Splitting
the text at every `@` and keeping, for each following segment, its maximal
leading run of mention characters (when non-empty) realises exactly that
description, because a run can never contain an `@`. -/
def mentionRuns (cs : List Char) : List String :=
  ((((cs.splitOnP (fun c => c = '@')).tail.map
      (fun seg => seg.takeWhile isMentionChar)).filter
      (fun run => !run.isEmpty)).map String.mk)

/-- String-level wrapper of `mentionRuns`. -/
def parseMentionsSpec (content : String) : List String :=
  mentionRuns content.toList

theorem tail_modifyHead (f : List Char → List Char) (l : List (List Char)) :
    (l.modifyHead f).tail = l.tail := by
  cases l <;> simp

theorem modifyHead_modifyHead (f g : List Char → List Char) (l : List (List Char)) :
    (l.modifyHead g).modifyHead f = l.modifyHead (fun x => f (g x)) := by
  cases l <;> simp

theorem splitOnP_append_not (p : Char → Bool) (run l : List Char)
    (h : ∀ c ∈ run, p c = false) :
    (run ++ l).splitOnP p = (l.splitOnP p).modifyHead (fun x => run ++ x) := by
  induction run with
  | nil =>
    cases hl : l.splitOnP p with
    | nil => exact absurd hl (List.splitOnP_ne_nil p l)
    | cons s ss => simp [hl]
  | cons r rs ih =>
    have hr : p r = false := h r (by simp)
    have hrs : ∀ c ∈ rs, p c = false := fun c hc => h c (by simp [hc])
    simp only [List.cons_append, List.splitOnP_cons, hr, Bool.false_eq_true,
      if_false, ih hrs, modifyHead_modifyHead]

theorem dropWhile_head_false (p : Char → Bool) (l : List Char) (d : Char)
    (dt : List Char) (h : l.dropWhile p = d :: dt) : p d = false := by
  induction l with
  | nil => simp [List.dropWhile] at h
  | cons a t ih =>
    rw [List.dropWhile_cons] at h
    by_cases ha : p a = true
    · exact ih (by simpa [ha] using h)
    · simp only [ha, Bool.false_eq_true, if_false, List.cons.injEq] at h
      rcases h with ⟨rfl, rfl⟩
      exact Bool.eq_false_iff.mpr ha

theorem takeWhile_append_all (p : Char → Bool) (l₁ l₂ : List Char)
    (h : ∀ c ∈ l₁, p c = true) :
    (l₁ ++ l₂).takeWhile p = l₁ ++ l₂.takeWhile p := by
  induction l₁ with
  | nil => simp
  | cons a t ih =>
    have ha : p a = true := h a (by simp)
    simp only [List.cons_append, List.takeWhile_cons, ha, if_true,
      ih (fun c hc => h c (by simp [hc]))]

/-- Head segment of a split has an empty run of mention characters whenever
the scanned text does. -/
theorem head_run_empty (rest : List Char)
    (hrun : rest.takeWhile isMentionChar = []) :
    ∀ s ss, rest.splitOnP (fun c => c = '@') = s :: ss →
      s.takeWhile isMentionChar = [] := by
  intro s ss hsplit
  cases rest with
  | nil =>
    rw [List.splitOnP_nil] at hsplit
    cases hsplit
    rfl
  | cons r rt =>
    rw [List.splitOnP_cons] at hsplit
    by_cases hr : r = '@'
    · rw [if_pos (by simp [hr])] at hsplit
      rcases hsplit with ⟨rfl, rfl⟩
      rfl
    · have hm : isMentionChar r = false := by
        rw [List.takeWhile_cons] at hrun
        by_cases hmr : isMentionChar r = true
        · simp [hmr] at hrun
        · exact Bool.eq_false_iff.mpr hmr
      rw [if_neg (by simp [hr])] at hsplit
      cases hsp : rt.splitOnP (fun c => c = '@') with
      | nil => exact absurd hsp (List.splitOnP_ne_nil _ rt)
      | cons s0 ss0 =>
        rw [hsp] at hsplit
        simp only [List.modifyHead_cons, List.cons.injEq] at hsplit
        rcases hsplit with ⟨⟨rfl, rfl⟩, rfl⟩
        rw [List.takeWhile_cons, hm]
        simp

theorem mentionRuns_cons_ne (c : Char) (rest : List Char) (hc : ¬ c = '@') :
    mentionRuns (c :: rest) = mentionRuns rest := by
  simp only [mentionRuns, List.splitOnP_cons]
  rw [if_neg (by simp [hc]), tail_modifyHead]

theorem mentionRuns_cons_at (rest : List Char) :
    mentionRuns ('@' :: rest) =
      if (rest.takeWhile isMentionChar).isEmpty then mentionRuns rest
      else String.mk (rest.takeWhile isMentionChar) ::
        mentionRuns (rest.dropWhile isMentionChar) := by
  have hsplitat : ('@' :: rest).splitOnP (fun c => c = '@') =
      [] :: rest.splitOnP (fun c => c = '@') := by
    rw [List.splitOnP_cons, if_pos (by simp)]
  by_cases hrun : rest.takeWhile isMentionChar = []
  · rw [if_pos (by simp [hrun])]
    cases hsp : rest.splitOnP (fun c => c = '@') with
    | nil => exact absurd hsp (List.splitOnP_ne_nil _ rest)
    | cons s ss =>
      have hs : s.takeWhile isMentionChar = [] := head_run_empty rest hrun s ss hsp
      simp only [mentionRuns, hsplitat, hsp, List.tail_cons, List.map_cons,
        List.filter_cons, hs, List.isEmpty_nil, Bool.not_true, Bool.false_eq_true,
        if_false]
  · rw [if_neg (by simp [hrun])]
    have hall : ∀ c ∈ rest.takeWhile isMentionChar, (decide (c = '@')) = false := by
      intro x hx
      have hmem := List.mem_takeWhile_imp hx
      simp only [decide_eq_false_iff_not]
      intro hxe
      subst hxe
      simp [isMentionChar] at hmem
    have hdecomp : rest.takeWhile isMentionChar ++ rest.dropWhile isMentionChar = rest :=
      List.takeWhile_append_dropWhile isMentionChar rest
    cases hsp : (rest.dropWhile isMentionChar).splitOnP (fun c => c = '@') with
    | nil => exact absurd hsp (List.splitOnP_ne_nil _ _)
    | cons s0 ss0 =>
      have hs0 : s0.takeWhile isMentionChar = [] := by
        apply head_run_empty (rest.dropWhile isMentionChar) _ s0 ss0 hsp
        cases hd : rest.dropWhile isMentionChar with
        | nil => rfl
        | cons d dt =>
          have hdf := dropWhile_head_false isMentionChar rest d dt hd
          rw [List.takeWhile_cons, hdf]
          simp
      have hsplit2 : rest.splitOnP (fun c => c = '@') =
          (rest.takeWhile isMentionChar ++ s0) :: ss0 := by
        conv_lhs => rw [← hdecomp]
        rw [splitOnP_append_not _ _ _ hall, hsp, List.modifyHead_cons]
      have htw : (rest.takeWhile isMentionChar ++ s0).takeWhile isMentionChar =
          rest.takeWhile isMentionChar := by
        rw [takeWhile_append_all _ _ _ (fun c hc => List.mem_takeWhile_imp hc), hs0,
          List.append_nil]
      have hne : (!(rest.takeWhile isMentionChar).isEmpty) = true := by
        simp [List.isEmpty_iff, hrun]
      simp [mentionRuns, hsplitat, hsp, hsplit2, htw, hne, List.filter_cons]

/-- The regex global-match loop of `parseMentions` computes exactly the
spec-side description `mentionRuns`. -/
theorem scanMentions_eq_mentionRuns (cs : List Char) :
    scanMentions cs = mentionRuns cs := by
  induction cs using scanMentions.induct with
  | case1 => simp [scanMentions, mentionRuns, List.splitOnP_nil]
  | case2 rest hrun ih =>
    rw [scanMentions]
    rw [if_pos rfl, if_pos hrun, ih, mentionRuns_cons_at, if_pos hrun]
  | case3 rest hrun ih =>
    rw [scanMentions]
    rw [if_pos rfl, if_neg hrun, ih, mentionRuns_cons_at, if_neg hrun]
  | case4 c rest hc ih =>
    rw [scanMentions]
    rw [if_neg hc, ih, mentionRuns_cons_ne c rest hc]

theorem strToList_append (s t : String) : (s ++ t).toList = s.toList ++ t.toList := by
  cases s
  cases t
  rfl

/-- C5: for every string, `parseMentions` returns exactly the ordered list
of `@`-prefixed maximal runs of mention characters (stripped of the `@`),
duplicates preserved, with no validation; and the concrete example of the
specification evaluates as stated. -/
theorem claim_C5_parseMentions_exact :
    (∀ s : String, parseMentions s = parseMentionsSpec s) ∧
    parseMentions "hi @alice @bob.eth @0xAbC123" = ["alice", "bob.eth", "0xAbC123"] := by
  constructor
  · intro s
    by_cases hs : s = ""
    · subst hs
      simp [parseMentions, parseMentionsSpec, mentionRuns, List.splitOnP_nil]
    · rw [parseMentions, if_neg hs, scanMentions_eq_mentionRuns, parseMentionsSpec]
  · simp [parseMentions, scanMentions, isMentionChar]

/-- Case-insensitive literal matcher: the semantics of a literal inside a
JavaScript regex with the `i` flag (ASCII case folding).  Returns the
remaining input on success. -/
def matchLitCI : List Char → List Char → Option (List Char)
  | [], cs => some cs
  | _ :: _, [] => none
  | p :: ps, c :: cs => if c.toLower == p.toLower then matchLitCI ps cs else none

/-- Semantics of `\s+` directly before a literal that starts with a
non-whitespace character: greedy maximal munch (backtracking can never
help, because giving back a whitespace character cannot start the
literal).  Consumes one mandatory whitespace character and then the
maximal whitespace run. -/
def ws1Drop : List Char → Option (List Char)
  | [] => none
  | c :: rest => if isJsWS c then some (rest.dropWhile isJsWS) else none

/-- Semantics of a trailing `(.+)`: requires at least one character that is
not a line terminator and captures greedily up to the next line
terminator. -/
def dotPlusCapture : List Char → Option (List Char)
  | [] => none
  | c :: rest =>
    if isLineTerm c then none
    else some ((c :: rest).takeWhile (fun d => !isLineTerm d))

/-- Semantics of a trailing `\s*(.+)`: greedy whitespace first, with
backtracking into the star when `(.+)` has nothing left to match. -/
def wsStarCapture : List Char → Option (List Char)
  | [] => none
  | c :: rest =>
    if isJsWS c then
      match wsStarCapture rest with
      | some r => some r
      | none => dotPlusCapture (c :: rest)
    else dotPlusCapture (c :: rest)

/-- Semantics of a trailing `\s+(.+)`. -/
def wsPlusCapture : List Char → Option (List Char)
  | [] => none
  | c :: rest => if isJsWS c then wsStarCapture rest else none

/-- The verb alternation `(?:create|make|new|sidebar)` of the command
regexes. -/
def verbAlts : List (List Char) :=
  ["create".toList, "make".toList, "new".toList, "sidebar".toList]

/-- Alternation followed by a continuation `k`.  The four verbs begin with
pairwise distinct letters, so at most one alternative can match at a given
position and first-match semantics coincides with full backtracking. -/
def tryAlts (alts : List (List Char)) (cs : List Char)
    (k : List Char → Option (List Char)) : Option (List Char) :=
  match alts with
  | [] => none
  | a :: rest =>
    match matchLitCI a cs with
    | some r => k r
    | none => tryAlts rest cs k

/-- Matcher, at one input position, for `lit` + `\s+` + verb alternation +
continuation `k` (the common prefix shape of all `@spinny` command
regexes). -/
def spinnyPatAt (lit : List Char) (k : List Char → Option (List Char))
    (cs : List Char) : Option (List Char) :=
  match matchLitCI lit cs with
  | none => none
  | some r1 =>
    match ws1Drop r1 with
    | none => none
    | some r2 => tryAlts verbAlts r2 k

/-- Unanchored regex search: try the position matcher at every suffix,
leftmost match first, exactly like `String.prototype.match` with an
unanchored pattern. -/
def searchPat (patAt : List Char → Option (List Char)) :
    List Char → Option (List Char)
  | [] => patAt []
  | c :: rest =>
    match patAt (c :: rest) with
    | some x => some x
    | none => searchPat patAt rest

/-- Continuation `\s+private\s+(.+)` used after the verb by the private
capture regexes of `parsePrivateGroupCommand`. -/
def privTail (r : List Char) : Option (List Char) :=
  match ws1Drop r with
  | none => none
  | some r2 =>
    match matchLitCI "private".toList r2 with
    | none => none
    | some r3 => wsPlusCapture r3

/-- Continuation `\s+private\s+` (no capture) used by the test regexes of
`isPrivateGroupCommand`. -/
def privTestTail (r : List Char) : Option (List Char) :=
  match ws1Drop r with
  | none => none
  | some r2 =>
    match matchLitCI "private".toList r2 with
    | none => none
    | some r3 => ws1Drop r3

/-- Embedding of `parseSidebarCommand` (`sidebarGroups.ts`): four regexes
tried in order — `@spinny` form, `@spinny.base.eth` form, anchored bare
form with all four verbs, anchored bare form with `create`/`sidebar`
(redundant, kept from the source) — each returning the trimmed capture. -/
def parseSidebarCommand (content : String) : Option String :=
  let cs := content.toList
  match searchPat (spinnyPatAt "@spinny".toList wsPlusCapture) cs with
  | some cap => some (trimJS (String.mk cap))
  | none =>
  match searchPat (spinnyPatAt "@spinny.base.eth".toList wsPlusCapture) cs with
  | some cap => some (trimJS (String.mk cap))
  | none =>
  match tryAlts verbAlts cs wsPlusCapture with
  | some cap => some (trimJS (String.mk cap))
  | none =>
  match tryAlts ["create".toList, "sidebar".toList] cs wsPlusCapture with
  | some cap => some (trimJS (String.mk cap))
  | none => none

/-- Embedding of `isPrivateGroupCommand` (`sidebarGroups.ts`): the content
is lower-cased and trimmed, then tested against the three `private`
patterns (mention form, `.base.eth` form, anchored bare form). -/
def isPrivateGroupCommand (content : String) : Bool :=
  let cs := (trimJS (lowerJS content)).toList
  (searchPat (spinnyPatAt "@spinny".toList privTestTail) cs).isSome ||
  (searchPat (spinnyPatAt "@spinny.base.eth".toList privTestTail) cs).isSome ||
  (tryAlts verbAlts cs privTestTail).isSome

/-- Embedding of `parsePrivateGroupCommand` (`sidebarGroups.ts`): the three
`private` capture regexes tried in order on the raw content. -/
def parsePrivateGroupCommand (content : String) : Option String :=
  let cs := content.toList
  match searchPat (spinnyPatAt "@spinny".toList privTail) cs with
  | some cap => some (trimJS (String.mk cap))
  | none =>
  match searchPat (spinnyPatAt "@spinny.base.eth".toList privTail) cs with
  | some cap => some (trimJS (String.mk cap))
  | none =>
  match tryAlts verbAlts cs privTail with
  | some cap => some (trimJS (String.mk cap))
  | none => none

/-- The composite `parseCommand` of the specification, assembled from the
source functions with the precedence the caller uses: a command recognised
as private is parsed by `parsePrivateGroupCommand` (qualifier stripped),
otherwise by `parseSidebarCommand`. -/
def parseCommand (content : String) : Option (Bool × String) :=
  if isPrivateGroupCommand content then
    (parsePrivateGroupCommand content).map (fun n => (true, n))
  else
    (parseSidebarCommand content).map (fun n => (false, n))

theorem searchPat_cons_of_pos (f : List Char → Option (List Char)) (c : Char)
    (rest x : List Char) (h : f (c :: rest) = some x) :
    searchPat f (c :: rest) = some x := by
  simp only [searchPat, h]

/-- A group name that is non-empty, does not begin with whitespace and
contains no line terminator is captured whole by a trailing `\s*(.+)`. -/
theorem wsStarCapture_full (name : String) (hn : name.toList ≠ [])
    (hw : isJsWS (name.toList.headD 'x') = false)
    (hl : ∀ c ∈ name.toList, isLineTerm c = false) :
    wsStarCapture name.toList = some name.toList := by
  obtain ⟨n0, ntail, h0⟩ := List.exists_cons_of_ne_nil hn
  rw [h0] at hw hl ⊢
  simp only [List.headD_cons] at hw
  have hl0 : isLineTerm n0 = false := hl n0 (by simp)
  simp only [wsStarCapture]
  rw [if_neg (by simp [hw])]
  simp only [dotPlusCapture]
  rw [if_neg (by simp [hl0])]
  congr 1
  apply List.takeWhile_eq_self_iff.mpr
  intro c hc
  simp [hl c hc]

theorem parseCommand_plain_eval (hd name : String) (c0 : Char) (t0 : List Char)
    (hh : hd.toList = c0 :: t0)
    (hm : spinnyPatAt "@spinny".toList wsPlusCapture (hd.toList ++ name.toList) =
      wsStarCapture name.toList)
    (hcap : wsStarCapture name.toList = some name.toList)
    (hp : isPrivateGroupCommand (hd ++ name) = false) :
    parseCommand (hd ++ name) = some (false, trimJS name) := by
  have hsome : searchPat (spinnyPatAt "@spinny".toList wsPlusCapture)
      (hd.toList ++ name.toList) = some name.toList := by
    rw [hh, List.cons_append]
    apply searchPat_cons_of_pos
    rw [← List.cons_append, ← hh, hm, hcap]
  have hsb : parseSidebarCommand (hd ++ name) = some (trimJS name) := by
    simp only [parseSidebarCommand]
    rw [strToList_append, hsome]
    rfl
  simp only [parseCommand]
  rw [hp]
  simp only [Bool.false_eq_true, if_false]
  rw [hsb]
  rfl

theorem parseCommand_priv_eval (hd name : String) (c0 : Char) (t0 : List Char)
    (hh : hd.toList = c0 :: t0)
    (hm : spinnyPatAt "@spinny".toList privTail (hd.toList ++ name.toList) =
      wsStarCapture name.toList)
    (hcap : wsStarCapture name.toList = some name.toList)
    (hpt : isPrivateGroupCommand (hd ++ name) = true) :
    parseCommand (hd ++ name) = some (true, trimJS name) := by
  have hsome : searchPat (spinnyPatAt "@spinny".toList privTail)
      (hd.toList ++ name.toList) = some name.toList := by
    rw [hh, List.cons_append]
    apply searchPat_cons_of_pos
    rw [← List.cons_append, ← hh, hm, hcap]
  have hsb : parsePrivateGroupCommand (hd ++ name) = some (trimJS name) := by
    simp only [parsePrivateGroupCommand]
    rw [strToList_append, hsome]
    rfl
  simp only [parseCommand]
  rw [hpt]
  simp only [if_true]
  rw [hsb]
  rfl

theorem parseCommand_bare_plain_eval (hd name : String)
    (hm : tryAlts verbAlts (hd.toList ++ name.toList) wsPlusCapture =
      wsStarCapture name.toList)
    (hcap : wsStarCapture name.toList = some name.toList)
    (hs1 : searchPat (spinnyPatAt "@spinny".toList wsPlusCapture)
      (hd ++ name).toList = none)
    (hs2 : searchPat (spinnyPatAt "@spinny.base.eth".toList wsPlusCapture)
      (hd ++ name).toList = none)
    (hp : isPrivateGroupCommand (hd ++ name) = false) :
    parseCommand (hd ++ name) = some (false, trimJS name) := by
  have hsb : parseSidebarCommand (hd ++ name) = some (trimJS name) := by
    simp only [parseSidebarCommand]
    rw [hs1, hs2, strToList_append, hm, hcap]
    rfl
  simp only [parseCommand]
  rw [hp]
  simp only [Bool.false_eq_true, if_false]
  rw [hsb]
  rfl

theorem parseCommand_bare_priv_eval (hd name : String)
    (hm : tryAlts verbAlts (hd.toList ++ name.toList) privTail =
      wsStarCapture name.toList)
    (hcap : wsStarCapture name.toList = some name.toList)
    (hs1 : searchPat (spinnyPatAt "@spinny".toList privTail)
      (hd ++ name).toList = none)
    (hs2 : searchPat (spinnyPatAt "@spinny.base.eth".toList privTail)
      (hd ++ name).toList = none)
    (hpt : isPrivateGroupCommand (hd ++ name) = true) :
    parseCommand (hd ++ name) = some (true, trimJS name) := by
  have hsb : parsePrivateGroupCommand (hd ++ name) = some (trimJS name) := by
    simp only [parsePrivateGroupCommand]
    rw [hs1, hs2, strToList_append, hm, hcap]
    rfl
  simp only [parseCommand]
  rw [hpt]
  simp only [if_true]
  rw [hsb]
  rfl

/-- C6 counterexample: the agent mention of the code is `@spinny` (or
`@spinny.base.eth`), not `@grouper`; on the claimed example input the
command parser recognises nothing at all. -/
theorem claim_C6_counterexample :
    parseCommand "@grouper create Marketing Team" = none := by decide

/-- C6 amended: command parsing behaves as claimed for both command forms
the code accepts — the mention-prefixed form with the agent mention
`@spinny` (the one the code recognises; `@grouper` is not) and the bare
unprefixed form: for a verb from create/make/new/sidebar followed by a
group name (non-empty, not starting with whitespace, no line terminator),
the name is captured whole and trimmed, case-insensitively, with
`private = false` when the message is not recognised as a private command;
with the `private` qualifier present the qualifier is recognised and
stripped from the returned name.  For the bare form the hypotheses record
that no `@spinny`-prefixed command occurs inside the text, since the
mention patterns are tried first. -/
theorem claim_C6_amended (v name pname bname bpname : String)
    (hv : v ∈ (["create", "make", "new", "sidebar"] : List String))
    (hn : name.toList ≠ []) (hw : isJsWS (name.toList.headD 'x') = false)
    (hl : ∀ c ∈ name.toList, isLineTerm c = false)
    (hp : isPrivateGroupCommand ("@spinny " ++ v ++ " " ++ name) = false)
    (pn : pname.toList ≠ []) (pw : isJsWS (pname.toList.headD 'x') = false)
    (pl : ∀ c ∈ pname.toList, isLineTerm c = false)
    (hpt : isPrivateGroupCommand ("@spinny " ++ v ++ " private " ++ pname) = true)
    (bn : bname.toList ≠ []) (bw : isJsWS (bname.toList.headD 'x') = false)
    (bl : ∀ c ∈ bname.toList, isLineTerm c = false)
    (hbs1 : searchPat (spinnyPatAt "@spinny".toList wsPlusCapture)
      (v ++ " " ++ bname).toList = none)
    (hbs2 : searchPat (spinnyPatAt "@spinny.base.eth".toList wsPlusCapture)
      (v ++ " " ++ bname).toList = none)
    (hbp : isPrivateGroupCommand (v ++ " " ++ bname) = false)
    (qn : bpname.toList ≠ []) (qw : isJsWS (bpname.toList.headD 'x') = false)
    (ql : ∀ c ∈ bpname.toList, isLineTerm c = false)
    (hqs1 : searchPat (spinnyPatAt "@spinny".toList privTail)
      (v ++ " private " ++ bpname).toList = none)
    (hqs2 : searchPat (spinnyPatAt "@spinny.base.eth".toList privTail)
      (v ++ " private " ++ bpname).toList = none)
    (hqt : isPrivateGroupCommand (v ++ " private " ++ bpname) = true) :
    parseCommand ("@spinny " ++ v ++ " " ++ name) = some (false, trimJS name) ∧
    parseCommand ("@spinny " ++ v ++ " private " ++ pname) = some (true, trimJS pname) ∧
    parseCommand (v ++ " " ++ bname) = some (false, trimJS bname) ∧
    parseCommand (v ++ " private " ++ bpname) = some (true, trimJS bpname) ∧
    parseCommand "hey @SPINNY MAKE Marketing Team" = some (false, "Marketing Team") := by
  have hcap := wsStarCapture_full name hn hw hl
  have pcap := wsStarCapture_full pname pn pw pl
  have bcap := wsStarCapture_full bname bn bw bl
  have qcap := wsStarCapture_full bpname qn qw ql
  have hmem : v = "create" ∨ v = "make" ∨ v = "new" ∨ v = "sidebar" := by
    simpa using hv
  rcases hmem with rfl | rfl | rfl | rfl <;>
    exact ⟨parseCommand_plain_eval _ name '@' _ rfl rfl hcap hp,
      parseCommand_priv_eval _ pname '@' _ rfl rfl pcap hpt,
      parseCommand_bare_plain_eval _ bname rfl bcap hbs1 hbs2 hbp,
      parseCommand_bare_priv_eval _ bpname rfl qcap hqs1 hqs2 hqt,
      by decide⟩

/-- C6 amended witness at concrete inputs, covering the mention-prefixed
form, the bare form, and a mixed-case input. -/
theorem claim_C6_amended_witness :
    parseCommand ("@spinny " ++ "create" ++ " " ++ "Marketing Team") =
      some (false, trimJS "Marketing Team") ∧
    parseCommand ("@spinny " ++ "create" ++ " private " ++ "Secret") =
      some (true, trimJS "Secret") ∧
    parseCommand ("create" ++ " " ++ "Marketing Team") =
      some (false, trimJS "Marketing Team") ∧
    parseCommand ("create" ++ " private " ++ "Secret") =
      some (true, trimJS "Secret") ∧
    parseCommand "hey @SPINNY MAKE Marketing Team" = some (false, "Marketing Team") :=
  claim_C6_amended "create" "Marketing Team" "Secret" "Marketing Team" "Secret"
    (by decide) (by decide) (by decide) (by decide) (by decide) (by decide)
    (by decide) (by decide) (by decide) (by decide) (by decide) (by decide)
    (by decide) (by decide) (by decide) (by decide) (by decide) (by decide)
    (by decide) (by decide) (by decide)

/-- The five steps of the DM conversation state machine (`store.ts`). -/
inductive DMStep where
  | IDLE
  | ASKED_CREATE_GROUP
  | WAITING_FOR_GROUP_NAME
  | ASKED_ADD_USERS
  | WAITING_FOR_USERNAMES
deriving Repr, DecidableEq

/-- `DMConversationState` of `store.ts`; timestamps are milliseconds since
the epoch, as returned by `Date.now()`. -/
structure DMConversationState where
  step : DMStep
  groupName : Option String
  groupId : Option String
  timestamp : Int
deriving Repr, DecidableEq

/-- JavaScript `Map.set`: replace the binding in place when the key is
present (preserving insertion order), otherwise append it. -/
def mapSet {α : Type} (k : String) (v : α) : List (String × α) → List (String × α)
  | [] => [(k, v)]
  | (k0, v0) :: rest => if k0 = k then (k, v) :: rest else (k0, v0) :: mapSet k v rest

/-- Embedding of `getDMState` (`store.ts`): a missing entry yields the
default `IDLE` state stamped with the current time. -/
def getDMState (m : List (String × DMConversationState)) (sender : String)
    (now : Int) : DMConversationState :=
  (List.lookup sender m).getD
    { step := .IDLE, groupName := none, groupId := none, timestamp := now }

/-- Embedding of `setDMState` (`store.ts`). -/
def setDMState (m : List (String × DMConversationState)) (sender : String)
    (st : DMConversationState) (now : Int) : List (String × DMConversationState) :=
  mapSet sender { st with timestamp := now } m

/-- Embedding of `cleanupOldDMStates` (`store.ts`): one sweep pass deletes
every entry whose timestamp is strictly older than one hour before `now`. -/
def cleanupOldDMStates (now : Int) (m : List (String × DMConversationState)) :
    List (String × DMConversationState) :=
  m.filter (fun p => !(decide (p.2.timestamp < now - 3600000)))

theorem lookup_none_of_not_mem {α : Type} (k : String) (l : List (String × α))
    (h : k ∉ l.map Prod.fst) : List.lookup k l = none := by
  induction l with
  | nil => rfl
  | cons hd t ih =>
    obtain ⟨a, b⟩ := hd
    simp only [List.map_cons, List.mem_cons] at h
    push_neg at h
    have ha : (k == a) = false := by
      simp only [beq_eq_false_iff_ne, ne_eq]
      exact h.1
    simp [List.lookup, ha, ih h.2]

theorem lookup_filter_nodup {α : Type} (p : String × α → Bool) (k : String)
    (m : List (String × α)) (hnd : (m.map Prod.fst).Nodup) :
    List.lookup k (m.filter p) =
      (List.lookup k m).bind (fun v => if p (k, v) then some v else none) := by
  induction m with
  | nil => rfl
  | cons hd t ih =>
    obtain ⟨k0, v0⟩ := hd
    simp only [List.map_cons, List.nodup_cons] at hnd
    obtain ⟨hk0, hndt⟩ := hnd
    by_cases hk : k0 = k
    · subst hk
      rw [List.filter_cons]
      by_cases hp : p (k0, v0) = true
      · simp [List.lookup, hp]
      · have hpf : p (k0, v0) = false := Bool.eq_false_iff.mpr hp
        simp only [hpf, Bool.false_eq_true, if_false]
        have hnone : List.lookup k0 (t.filter p) = none := by
          apply lookup_none_of_not_mem
          intro hmem
          apply hk0
          simp only [List.mem_map] at hmem ⊢
          obtain ⟨q, hq, hqe⟩ := hmem
          exact ⟨q, List.mem_of_mem_filter hq, hqe⟩
        simp [List.lookup, hnone, hpf]
    · have hkb : (k == k0) = false := by
        simp only [beq_eq_false_iff_ne, ne_eq]
        exact fun he => hk he.symm
      rw [List.filter_cons]
      by_cases hp : p (k0, v0) = true
      · simp [List.lookup, hp, hkb, ih hndt]
      · have hpf : p (k0, v0) = false := Bool.eq_false_iff.mpr hp
        simp [List.lookup, hpf, hkb, ih hndt]

/-- C7: an entry whose timestamp is more than one hour in the past is
removed by one run of the sweep, and every later lookup for that sender
yields the default `IDLE` state, never the evicted data; an entry with a
timestamp within the last hour survives the sweep unchanged. -/
theorem claim_C7_eviction (m : List (String × DMConversationState))
    (sender : String) (st : DMConversationState) (now : Int)
    (hnd : (m.map Prod.fst).Nodup)
    (hlook : List.lookup sender m = some st) :
    (st.timestamp < now - 3600000 →
      List.lookup sender (cleanupOldDMStates now m) = none ∧
      ∀ t2 : Int, getDMState (cleanupOldDMStates now m) sender t2 =
        { step := .IDLE, groupName := none, groupId := none, timestamp := t2 }) ∧
    (¬ st.timestamp < now - 3600000 →
      List.lookup sender (cleanupOldDMStates now m) = some st) := by
  have hbase := lookup_filter_nodup
    (fun p => !(decide (p.2.timestamp < now - 3600000))) sender m hnd
  rw [hlook] at hbase
  constructor
  · intro hold
    have hc : (!(decide (st.timestamp < now - 3600000))) = false := by
      rw [decide_eq_true hold]
      rfl
    have hres : List.lookup sender (cleanupOldDMStates now m) = none := by
      rw [cleanupOldDMStates, hbase]
      show (if (!(decide (st.timestamp < now - 3600000))) = true then some st else none) = none
      rw [hc]
      rfl
    refine ⟨hres, fun t2 => ?_⟩
    rw [getDMState, hres]
    rfl
  · intro hyoung
    have hc : (!(decide (st.timestamp < now - 3600000))) = true := by
      rw [decide_eq_false hyoung]
      rfl
    rw [cleanupOldDMStates, hbase]
    show (if (!(decide (st.timestamp < now - 3600000))) = true then some st else none) = some st
    rw [hc]
    rfl

/-- C7 witness: a stale entry (timestamp 0, swept at epoch + 1 hour + 1 ms)
is evicted and lookups return the default, while a fresh entry is kept. -/
theorem claim_C7_eviction_witness :
    List.lookup "alice"
      (cleanupOldDMStates 3600001
        [("alice", ⟨.WAITING_FOR_GROUP_NAME, some "X", none, 0⟩)]) = none ∧
    getDMState
      (cleanupOldDMStates 3600001
        [("alice", ⟨.WAITING_FOR_GROUP_NAME, some "X", none, 0⟩)]) "alice" 7 =
      ⟨.IDLE, none, none, 7⟩ := by
  have h := claim_C7_eviction
    [("alice", ⟨.WAITING_FOR_GROUP_NAME, some "X", none, 0⟩)]
    "alice" ⟨.WAITING_FOR_GROUP_NAME, some "X", none, 0⟩
    3600001 (by decide) (by decide)
  obtain ⟨h1, h2⟩ := (h.1 (by decide))
  exact ⟨h1, h2 7⟩

/-- `SidebarGroup` record of `sidebarGroups.ts`; `createdAt` is a
millisecond timestamp. -/
structure SidebarGroup where
  id : String
  name : String
  originalGroupId : String
  createdBy : String
  createdAt : Int
  members : List String
deriving Repr, DecidableEq

/-- One button of a structured-invitation payload
(`xmtp-inline-actions` `ActionsContent.actions[i]`). -/
structure ActionItem where
  id : String
  label : String
  style : String
deriving Repr, DecidableEq

/-- Structured-invitation payload (`ActionsContent`). -/
structure ActionsContent where
  id : String
  description : String
  actions : List ActionItem
deriving Repr, DecidableEq

/-- One remote platform call, as recorded in the call trace of an
operation.  A call is recorded when it is attempted, whether or not the
environment makes it fail. -/
inductive RemoteCall where
  | newGroup (members : List String)
  | updateName (groupId name : String)
  | addSuperAdmin (groupId user : String)
  | sendText (conversationId msg : String)
  | sendActions (conversationId : String) (payload : ActionsContent)
  | sync
  | listConvos
  | addMembers (groupId : String) (users : List String)
  | resolve (username : String)
deriving Repr, DecidableEq

/-- Result of one orchestrator operation: the updated local group table,
the trace of attempted remote calls, and the returned user-facing string. -/
structure OpResult where
  groups : List (String × SidebarGroup)
  trace : List RemoteCall
  response : String
deriving Repr, DecidableEq

/-- Environment fixing the outcome of each remote call that
`handleSidebarRequest` can attempt.  `renameRes` and `adminRes` are listed
for completeness: the source catches their failures locally, so their
values never influence the result. -/
structure CreateEnv where
  clientInit : Bool
  createRes : Except JsError String
  currentName : Option String
  renameRes : Except JsError Unit
  adminRes : Except JsError Unit
  welcomeRes : Except JsError Unit
  replyRes : Except JsError Unit

def notInitializedMsg : String :=
  "❌ Sidebar group system not initialized. Please try again later."

def createFailMsg (groupName : String) (e : JsError) : String :=
  "❌ Failed to create sidebar group \"" ++ groupName ++
  "\". Please try again later.\n\nError: " ++ e.message.getD "undefined"

def welcomeText (groupName : String) : String :=
  "🎯 Welcome to \"" ++ groupName ++
  "\"!\n\nThis is a sidebar conversation from the main group. You are now a group admin and can manage this space for focused discussions."

def dmReplyText (groupName : String) : String :=
  "✅ Created sidebar group \"" ++ groupName ++
  "\"!\n\nIs there anyone you would like me to add? You can mention them like:\n@username1 @username2.eth @0x1234...\n\nJust reply with the @mentions and I\x27ll add those users to the group."

def privReplyText (groupName : String) : String :=
  "✅ Created private sidebar group \"" ++ groupName ++
  "\"!\n\nTo add users to this private group, reply with @mentions like:\n@spinny @username1 @username2.eth @0x1234...\n\nNote: Use usernames, ENS domains, or wallet addresses."

/-- The quick-actions invitation sent to the originating group conversation
(`sidebarGroups.ts`, step 7 of `handleSidebarRequest`). -/
def invitePayload (gid groupName : String) : ActionsContent :=
  { id := "sidebar_invite_" ++ gid
    description := "🎯 \"" ++ groupName ++
      "\" sidebar group created! Would you like to join this focused discussion?"
    actions :=
      [ { id := "join_sidebar_" ++ gid, label := "✅ Yes, Join", style := "primary" }
      , { id := "decline_sidebar_" ++ gid, label := "❌ No Thanks", style := "secondary" } ] }

/-- Condition of step 2 of `handleSidebarRequest`:
`if (!currentName || currentName !== groupName)` — a missing or empty
current name is falsy. -/
def needsRename (current : Option String) (groupName : String) : Bool :=
  match current with
  | none => true
  | some s => s == "" || s != groupName

/-- Embedding of `handleSidebarRequest` (`sidebarGroups.ts`).  The body is
one big `try`: any uncaught throw lands in the final catch, which returns
the failure message.  Steps 2 (rename) and 4 (admin promotion) have their
own local `try`/`catch` and are therefore attempted but cannot fail the
operation; the welcome send (step 5) and the reply/invitation send
(step 7) are not individually guarded. -/
def handleSidebarRequest (env : CreateEnv) (groupName requester origGroupId : String)
    (isDM isPrivateGroup : Bool) (now : Int)
    (groups : List (String × SidebarGroup)) : OpResult :=
  if env.clientInit = false then ⟨groups, [], notInitializedMsg⟩ else
  match env.createRes with
  | .error e => ⟨groups, [.newGroup [requester]], createFailMsg groupName e⟩
  | .ok gid =>
    let tr1 := [RemoteCall.newGroup [requester]] ++
      (if needsRename env.currentName groupName
       then [RemoteCall.updateName gid groupName] else [])
    let st1 := mapSet gid ⟨gid, groupName, origGroupId, requester, now, [requester]⟩ groups
    let tr3 := tr1 ++ [RemoteCall.addSuperAdmin gid requester,
      RemoteCall.sendText gid (welcomeText groupName)]
    match env.welcomeRes with
    | .error e => ⟨st1, tr3, createFailMsg groupName e⟩
    | .ok _ =>
      if isDM then
        let tr4 := tr3 ++ [RemoteCall.sendText origGroupId (dmReplyText groupName)]
        match env.replyRes with
        | .error e => ⟨st1, tr4, createFailMsg groupName e⟩
        | .ok _ => ⟨st1, tr4, ""⟩
      else if isPrivateGroup then
        let tr4 := tr3 ++ [RemoteCall.sendText origGroupId (privReplyText groupName)]
        match env.replyRes with
        | .error e => ⟨st1, tr4, createFailMsg groupName e⟩
        | .ok _ => ⟨st1, tr4, ""⟩
      else
        let tr4 := tr3 ++ [RemoteCall.sendActions origGroupId (invitePayload gid groupName)]
        match env.replyRes with
        | .error e => ⟨st1, tr4, createFailMsg groupName e⟩
        | .ok _ => ⟨st1, tr4, ""⟩

/-- Environment for `joinSidebarGroup` and the member-add loop of
`addUsersToSidebarGroup`. -/
structure JoinEnv where
  clientInit : Bool
  syncRes : Except JsError Unit
  listed : Bool
  addRes : Except JsError Unit
  announceRes : Except JsError Unit

/-- Duplicate-membership classification of the source:
`message?.includes('already') || message?.includes('duplicate')`. -/
def isDupErr (e : JsError) : Bool :=
  (e.message.map (fun m => jsIncludes m "already" || jsIncludes m "duplicate")).getD false

/-- Transient-failure classification of the source:
`message?.includes('Failed to verify all installations') || code === 'GenericFailure'`. -/
def isInstallErr (e : JsError) : Bool :=
  (e.message.map (fun m => jsIncludes m "Failed to verify all installations")).getD false ||
  e.code == some "GenericFailure"

def joinNotFoundLocal : String := "❌ Sidebar group not found."

def joinNotFoundList : String := "❌ Could not find sidebar group. Please contact support."

def alreadyMsg (name : String) : String :=
  "ℹ️ You\x27re already in \"" ++ name ++ "\"! Check your group conversations to find it."

def joinInstallMsg (name : String) : String :=
  "⚠️ There\x27s a temporary network issue preventing group access right now. \n\nPlease try joining \"" ++
  name ++
  "\" again in a few minutes, or contact support if the issue persists.\n\nThe sidebar group is available and you can try again later!"

/-- Fallback of `${addError.message || 'Unknown error'}`: undefined and the
empty string are both falsy. -/
def errMsgOr (m : Option String) (d : String) : String :=
  match m with
  | none => d
  | some s => if s = "" then d else s

def joinUnknownMsg (name : String) (e : JsError) : String :=
  "❌ Failed to add you to \"" ++ name ++ "\". Error: " ++
  errMsgOr e.message "Unknown error" ++ ". Please contact support."

def announceText (name user : String) : String :=
  "🎉 " ++ user ++ " joined the \"" ++ name ++ "\" sidebar discussion!"

def joinSuccessMsg (name : String) : String :=
  "✅ Great! You\x27re now in \"" ++ name ++
  "\" sidebar group.\n\nYou\x27ll receive messages and can participate in this focused discussion! Check your group conversations for the new sidebar."

def joinCatchMsg : String :=
  "❌ Failed to join sidebar group. Please contact support or try again later."

/-- Embedding of `joinSidebarGroup` (`sidebarGroups.ts`).  A sync or
announcement-send throw reaches the outer catch; the `addMembers` throw is
classified into already-in / transient / unknown messages.  On success the
user is appended to the local member list before the announcement is
sent. -/
def joinSidebarGroup (env : JoinEnv) (groupId userInboxId : String)
    (groups : List (String × SidebarGroup)) : OpResult :=
  if env.clientInit = false then ⟨groups, [], notInitializedMsg⟩ else
  match List.lookup groupId groups with
  | none => ⟨groups, [], joinNotFoundLocal⟩
  | some data =>
    match env.syncRes with
    | .error _ => ⟨groups, [.sync], joinCatchMsg⟩
    | .ok _ =>
      if env.listed = false then ⟨groups, [.sync, .listConvos], joinNotFoundList⟩
      else
        let tr2 := [RemoteCall.sync, RemoteCall.listConvos,
          RemoteCall.addMembers groupId [userInboxId]]
        match env.addRes with
        | .error e =>
          if isDupErr e then ⟨groups, tr2, alreadyMsg data.name⟩
          else if isInstallErr e then ⟨groups, tr2, joinInstallMsg data.name⟩
          else ⟨groups, tr2, joinUnknownMsg data.name e⟩
        | .ok _ =>
          let data2 := { data with members := data.members ++ [userInboxId] }
          let st2 := mapSet groupId data2 groups
          let tr3 := tr2 ++ [RemoteCall.sendText groupId (announceText data.name userInboxId)]
          match env.announceRes with
          | .error _ => ⟨st2, tr3, joinCatchMsg⟩
          | .ok _ => ⟨st2, tr3, joinSuccessMsg data.name⟩

def declineAck (name : String) : String :=
  "✅ You\x27ve declined to join \"" ++ name ++ "\". No worries!"

/-- Embedding of `declineSidebarGroup` (`sidebarGroups.ts`): a pure
acknowledgement that only reads the stored name. -/
def declineSidebarGroup (groups : List (String × SidebarGroup))
    (groupId _userInboxId : String) : OpResult :=
  let name := match List.lookup groupId groups with
    | some d => d.name
    | none => "sidebar group"
  ⟨groups, [], declineAck name⟩

/-- The full mutable state the agent process keeps: the sidebar-group
table and the DM conversation states. -/
structure World where
  sidebarGroups : List (String × SidebarGroup)
  dmStates : List (String × DMConversationState)
deriving Repr, DecidableEq

/-- `declineSidebarGroup` lifted to the whole process state, to make its
frame explicit: the function neither receives nor writes the conversation
states. -/
def declineInWorld (w : World) (groupId userInboxId : String) :
    World × List RemoteCall × String :=
  let r := declineSidebarGroup w.sidebarGroups groupId userInboxId
  ({ w with sidebarGroups := r.groups }, r.trace, r.response)

theorem mapSet_lookup {α : Type} (k : String) (v : α) (m : List (String × α))
    (u : String) :
    List.lookup u (mapSet k v m) = if u = k then some v else List.lookup u m := by
  induction m with
  | nil =>
    simp only [mapSet]
    by_cases hu : u = k
    · subst hu
      simp [List.lookup]
    · have hb : (u == k) = false := by
        simp only [beq_eq_false_iff_ne, ne_eq]
        exact hu
      simp [List.lookup, hb, hu]
  | cons hd t ih =>
    obtain ⟨k0, v0⟩ := hd
    simp only [mapSet]
    by_cases hk : k0 = k
    · subst hk
      simp only [if_pos rfl]
      by_cases hu : u = k0
      · subst hu
        simp [List.lookup]
      · have hb : (u == k0) = false := by
          simp only [beq_eq_false_iff_ne, ne_eq]
          exact hu
        simp [List.lookup, hb, hu]
    · rw [if_neg hk]
      by_cases hu : u = k0
      · subst hu
        simp [List.lookup, hk]
      · have hb : (u == k0) = false := by
          simp only [beq_eq_false_iff_ne, ne_eq]
          exact hu
        simp [List.lookup, hb, ih]

/-- C1 counterexample: an environment in which the remote create call
succeeds but the welcome-message send throws makes `handleSidebarRequest`
return the failure message — so a step after the create call can, contrary
to the claim, make the operation report failure. -/
theorem claim_C1_counterexample :
    (CreateEnv.createRes ⟨true, .ok "g1", none, .ok (), .ok (),
        .error ⟨some "boom", none⟩, .ok ()⟩) = Except.ok "g1" ∧
    (handleSidebarRequest ⟨true, .ok "g1", none, .ok (), .ok (),
        .error ⟨some "boom", none⟩, .ok ()⟩ "Team" "u1" "orig" false false 0
        []).response = createFailMsg "Team" ⟨some "boom", none⟩ := by
  constructor
  · rfl
  · rfl

/-- C1 amended: after a successful create call, failures of the rename and
admin-promotion steps never make the operation report failure (they are
locally caught; the environment leaves their outcomes unconstrained
below), but a thrown welcome-message send or invitation/reply send does
produce the failure message, exactly like a failure of the create call
itself. -/
theorem claim_C1_amended (env : CreateEnv) (groupName requester orig : String)
    (isDM isPriv : Bool) (now : Int) (groups : List (String × SidebarGroup))
    (gid : String) (e : JsError)
    (hinit : env.clientInit = true)
    (hcreate : env.createRes = .ok gid) :
    (env.welcomeRes = .ok () → env.replyRes = .ok () →
      (handleSidebarRequest env groupName requester orig isDM isPriv now
        groups).response = "") ∧
    (env.welcomeRes = .error e →
      (handleSidebarRequest env groupName requester orig isDM isPriv now
        groups).response = createFailMsg groupName e) ∧
    (env.welcomeRes = .ok () → env.replyRes = .error e →
      (handleSidebarRequest env groupName requester orig isDM isPriv now
        groups).response = createFailMsg groupName e) := by
  refine ⟨fun hw hr => ?_, fun hw => ?_, fun hw hr => ?_⟩
  · cases isDM <;> cases isPriv <;>
      simp [handleSidebarRequest, hinit, hcreate, hw, hr]
  · simp [handleSidebarRequest, hinit, hcreate, hw]
  · cases isDM <;> cases isPriv <;>
      simp [handleSidebarRequest, hinit, hcreate, hw, hr]

/-- C1 amended witness: with every remote call succeeding, group-origin
creation reports no failure. -/
theorem claim_C1_amended_witness :
    (handleSidebarRequest ⟨true, .ok "g1", none, .ok (), .ok (), .ok (),
      .ok ()⟩ "Team" "u1" "orig" false false 0 []).response = "" :=
  (claim_C1_amended _ "Team" "u1" "orig" false false 0 [] "g1" ⟨none, none⟩
    rfl rfl).1 rfl rfl

/-- C9: declining an invitation changes no state and performs no remote
call, whether or not the group exists locally: the whole process state is
returned unchanged, the call trace is empty, and only the acknowledgement
string (with the stored name when present) is produced. -/
theorem claim_C9_decline_frame (w : World) (gid user : String) :
    declineInWorld w gid user =
      (w, [], declineAck
        ((List.lookup gid w.sidebarGroups).elim "sidebar group" SidebarGroup.name)) := by
  cases h : List.lookup gid w.sidebarGroups <;>
    simp [declineInWorld, declineSidebarGroup, h]

/-- C4: joining the same existing group twice succeeds both times: the
first join adds the user and returns the success message; the second join,
in which the platform rejects the duplicate membership with an
already/duplicate message, returns the already-in-group success-style
message, not a failure. -/
theorem claim_C4_join_idempotent (env1 env2 : JoinEnv) (gid user : String)
    (groups : List (String × SidebarGroup)) (data : SidebarGroup) (e : JsError)
    (hfound : List.lookup gid groups = some data)
    (h1 : env1.clientInit = true) (h1s : env1.syncRes = .ok ())
    (h1l : env1.listed = true) (h1a : env1.addRes = .ok ())
    (h1n : env1.announceRes = .ok ())
    (h2 : env2.clientInit = true) (h2s : env2.syncRes = .ok ())
    (h2l : env2.listed = true) (h2a : env2.addRes = .error e)
    (hdup : isDupErr e = true) :
    (joinSidebarGroup env1 gid user groups).response = joinSuccessMsg data.name ∧
    (joinSidebarGroup env1 gid user groups).groups =
      mapSet gid { data with members := data.members ++ [user] } groups ∧
    (joinSidebarGroup env2 gid user
      (joinSidebarGroup env1 gid user groups).groups).response =
        alreadyMsg data.name := by
  have hr1 : joinSidebarGroup env1 gid user groups =
      ⟨mapSet gid { data with members := data.members ++ [user] } groups,
       [.sync, .listConvos, .addMembers gid [user],
        .sendText gid (announceText data.name user)],
       joinSuccessMsg data.name⟩ := by
    simp [joinSidebarGroup, h1, hfound, h1s, h1l, h1a, h1n]
  refine ⟨by rw [hr1], by rw [hr1], ?_⟩
  rw [hr1]
  have hlook2 : List.lookup gid
      (mapSet gid { data with members := data.members ++ [user] } groups) =
      some { data with members := data.members ++ [user] } := by
    rw [mapSet_lookup]
    simp
  simp [joinSidebarGroup, h2, hlook2, h2s, h2l, h2a, hdup]

/-- C4 witness at concrete inputs. -/
theorem claim_C4_join_idempotent_witness :
    (joinSidebarGroup ⟨true, .ok (), true, .ok (), .ok ()⟩ "g1" "u2"
      [("g1", ⟨"g1", "Team", "orig", "u1", 0, ["u1"]⟩)]).response =
      joinSuccessMsg "Team" ∧
    (joinSidebarGroup ⟨true, .ok (), true, .ok (), .ok ()⟩ "g1" "u2"
      [("g1", ⟨"g1", "Team", "orig", "u1", 0, ["u1"]⟩)]).groups =
      mapSet "g1" ⟨"g1", "Team", "orig", "u1", 0, ["u1", "u2"]⟩
        [("g1", ⟨"g1", "Team", "orig", "u1", 0, ["u1"]⟩)] ∧
    (joinSidebarGroup ⟨true, .ok (), true,
        .error ⟨some "user already a member", none⟩, .ok ()⟩ "g1" "u2"
      (joinSidebarGroup ⟨true, .ok (), true, .ok (), .ok ()⟩ "g1" "u2"
        [("g1", ⟨"g1", "Team", "orig", "u1", 0, ["u1"]⟩)]).groups).response =
      alreadyMsg "Team" :=
  claim_C4_join_idempotent ⟨true, .ok (), true, .ok (), .ok ()⟩
    ⟨true, .ok (), true, .error ⟨some "user already a member", none⟩, .ok ()⟩
    "g1" "u2" [("g1", ⟨"g1", "Team", "orig", "u1", 0, ["u1"]⟩)]
    ⟨"g1", "Team", "orig", "u1", 0, ["u1"]⟩
    ⟨some "user already a member", none⟩
    (by decide) rfl rfl rfl rfl rfl rfl rfl rfl rfl (by decide)

/-- Per-token resolution outcome as the caller observes it: a throw inside
the per-token `try` of `resolveUsernamesToInboxIds` is caught and recorded
as a null entry, exactly like an ordinary failed resolution. -/
def resolveOutcome (resolve : String → Except JsError (Option String))
    (u : String) : Option String :=
  match resolve u with
  | .ok v => v
  | .error _ => none

/-- The sequential loop of `resolveUsernamesToInboxIds`
(`usernameResolver.ts`): every token gets exactly one map entry, set from
its own resolution only. -/
def resolveLoop (resolve : String → Except JsError (Option String)) :
    List String → List (String × Option String) → List (String × Option String)
  | [], acc => acc
  | u :: rest, acc => resolveLoop resolve rest (mapSet u (resolveOutcome resolve u) acc)

/-- Embedding of `resolveUsernamesToInboxIds` (`usernameResolver.ts`):
returns the username → inboxId-or-null map and the trace of per-token
resolution calls. -/
def resolveUsernamesToInboxIds (resolve : String → Except JsError (Option String))
    (usernames : List String) :
    List (String × Option String) × List RemoteCall :=
  (resolveLoop resolve usernames [], usernames.map RemoteCall.resolve)

theorem mem_keys_mapSet {α : Type} (k : String) (v : α) (m : List (String × α))
    (u : String) :
    u ∈ (mapSet k v m).map Prod.fst ↔ u = k ∨ u ∈ m.map Prod.fst := by
  induction m with
  | nil => simp [mapSet]
  | cons hd t ih =>
    obtain ⟨k0, v0⟩ := hd
    simp only [mapSet]
    by_cases hk : k0 = k
    · subst hk
      simp
    · simp only [if_neg hk, List.map_cons, List.mem_cons, ih]
      tauto

theorem mapSet_keys_nodup {α : Type} (k : String) (v : α) (m : List (String × α))
    (h : (m.map Prod.fst).Nodup) : ((mapSet k v m).map Prod.fst).Nodup := by
  induction m with
  | nil => simp [mapSet]
  | cons hd t ih =>
    obtain ⟨k0, v0⟩ := hd
    simp only [List.map_cons, List.nodup_cons] at h
    obtain ⟨hk0, hnd⟩ := h
    simp only [mapSet]
    by_cases hk : k0 = k
    · subst hk
      rw [if_pos rfl]
      simp only [List.map_cons, List.nodup_cons]
      exact ⟨hk0, hnd⟩
    · simp only [if_neg hk, List.map_cons, List.nodup_cons]
      refine ⟨?_, ih hnd⟩
      rw [mem_keys_mapSet]
      rintro (rfl | hmem)
      · exact hk rfl
      · exact hk0 hmem

theorem resolveLoop_lookup (resolve : String → Except JsError (Option String))
    (us : List String) (acc : List (String × Option String)) (u : String) :
    List.lookup u (resolveLoop resolve us acc) =
      if u ∈ us then some (resolveOutcome resolve u)
      else List.lookup u acc := by
  induction us generalizing acc with
  | nil => simp [resolveLoop]
  | cons v rest ih =>
    simp only [resolveLoop]
    rw [ih]
    by_cases hmem : u ∈ rest
    · simp [hmem]
    · rw [if_neg hmem, mapSet_lookup]
      by_cases huv : u = v
      · subst huv
        simp
      · simp [huv, hmem]

theorem resolveLoop_keys_nodup (resolve : String → Except JsError (Option String))
    (us : List String) (acc : List (String × Option String))
    (h : (acc.map Prod.fst).Nodup) :
    ((resolveLoop resolve us acc).map Prod.fst).Nodup := by
  induction us generalizing acc with
  | nil => simpa [resolveLoop] using h
  | cons v rest ih =>
    simp only [resolveLoop]
    exact ih _ (mapSet_keys_nodup _ _ _ h)

/-- C3: the batch resolver yields exactly one entry per input token — the
token resolution result for resolved tokens and null for failed or
throwing tokens — with no entry for anything else, each entry depending
only on that token, and no exception escaping (a throw is caught and
becomes a null entry, by `resolveOutcome`); in the concrete 3-token
instance with exactly one resolvable token, the map has exactly one
non-null and two null entries. -/
theorem claim_C3_resolver_batch
    (resolve : String → Except JsError (Option String)) (usernames : List String) :
    (((resolveUsernamesToInboxIds resolve usernames).1.map Prod.fst).Nodup ∧
     ∀ u : String, List.lookup u (resolveUsernamesToInboxIds resolve usernames).1 =
       if u ∈ usernames then some (resolveOutcome resolve u) else none) ∧
    ((resolveUsernamesToInboxIds
        (fun u => if u = "bob" then .ok (some "inbox-bob")
          else if u = "carol" then .error ⟨some "boom", none⟩ else .ok none)
        ["alice", "bob", "carol"]).1 =
      [("alice", none), ("bob", some "inbox-bob"), ("carol", none)] ∧
     ((resolveUsernamesToInboxIds
        (fun u => if u = "bob" then .ok (some "inbox-bob")
          else if u = "carol" then .error ⟨some "boom", none⟩ else .ok none)
        ["alice", "bob", "carol"]).1.filter (fun p => p.2.isSome)).length = 1 ∧
     ((resolveUsernamesToInboxIds
        (fun u => if u = "bob" then .ok (some "inbox-bob")
          else if u = "carol" then .error ⟨some "boom", none⟩ else .ok none)
        ["alice", "bob", "carol"]).1.filter (fun p => p.2.isNone)).length = 2) := by
  refine ⟨⟨?_, ?_⟩, by decide, by decide, by decide⟩
  · exact resolveLoop_keys_nodup resolve usernames [] (by simp)
  · intro u
    rw [resolveUsernamesToInboxIds]
    rw [resolveLoop_lookup]
    by_cases hmem : u ∈ usernames <;> simp [hmem]

/-- Environment for `addUsersToSidebarGroup`: per-token resolution
outcomes, sync/list outcome, per-recipient `addMembers` outcomes, and the
group-notification send outcome. -/
structure AddEnv where
  clientInit : Bool
  resolve : String → Except JsError (Option String)
  syncRes : Except JsError Unit
  listed : Bool
  addRes : String → Except JsError Unit
  notifyRes : Except JsError Unit

/-- The filter loop over the resolution map entries: resolved inbox ids in
entry order, and the usernames that failed to resolve. -/
def collectResolved : List (String × Option String) → List String × List String
  | [] => ([], [])
  | (u, r) :: rest =>
    let p := collectResolved rest
    match r with
    | some i => (i :: p.1, p.2)
    | none => (p.1, u :: p.2)

/-- Does the `addMembers` call for this recipient succeed? -/
def addOk (addRes : String → Except JsError Unit) (u : String) : Bool :=
  match addRes u with
  | .ok _ => true
  | .error _ => false

/-- Does the `addMembers` call for this recipient fail with a
non-duplicate error (the only case the loop records as failed)? -/
def addHardFail (addRes : String → Except JsError Unit) (u : String) : Bool :=
  match addRes u with
  | .ok _ => false
  | .error e => !isDupErr e

/-- The member-add loop of `addUsersToSidebarGroup`: one `addMembers` call
per resolved recipient; a success is recorded in the added list, a
duplicate-membership error is skipped entirely (`continue`), any other
error is recorded in the failed list.  Returns (added, failed, trace). -/
def addLoop (addRes : String → Except JsError Unit) (gid : String) :
    List String → List String × List String × List RemoteCall
  | [] => ([], [], [])
  | u :: rest =>
    let p := addLoop addRes gid rest
    match addRes u with
    | .ok _ => (u :: p.1, p.2.1, RemoteCall.addMembers gid [u] :: p.2.2)
    | .error e =>
      if isDupErr e then (p.1, p.2.1, RemoteCall.addMembers gid [u] :: p.2.2)
      else (p.1, u :: p.2.1, RemoteCall.addMembers gid [u] :: p.2.2)

theorem addLoop_spec (addRes : String → Except JsError Unit) (gid : String)
    (us : List String) :
    addLoop addRes gid us =
      (us.filter (addOk addRes), us.filter (addHardFail addRes),
       us.map (fun u => RemoteCall.addMembers gid [u])) := by
  induction us with
  | nil => rfl
  | cons u rest ih =>
    simp only [addLoop, ih, List.filter_cons, List.map_cons]
    cases ha : addRes u with
    | ok v => simp [addOk, addHardFail, ha]
    | error e =>
      by_cases hd : isDupErr e = true
      · simp [addOk, addHardFail, ha, hd]
      · simp [addOk, addHardFail, ha, hd]

def joinComma (l : List String) : String := String.intercalate ", " l

def addNotCreatorMsg : String := "❌ Only the group creator can add members."

def addNoMentionsMsg : String :=
  "❌ No usernames found in your message. Please mention users like @username, @username.eth, or @0x1234..."

def resolveHintText : String :=
  "\n\nTry using:\n- ENS domains: @username.eth\n- Wallet addresses: @0x1234...\n- Make sure the user has XMTP enabled"

def addNoResolvedMsg (faileds : List String) : String :=
  "❌ Could not resolve any usernames to valid XMTP addresses. Failed usernames: " ++
  joinComma faileds ++ resolveHintText

def addCatchMsg : String :=
  "❌ Failed to add users to sidebar group. Please try again later."

def notifyText (n : Nat) (name : String) (added : List String) : String :=
  "🎉 Added " ++ toString n ++ " new member(s) to \"" ++ name ++ "\": " ++
  joinComma added

/-- The usernames reported back as added: map entries whose resolved inbox
id ended up in the added list. -/
def successNames (rm : List (String × Option String)) (added : List String) :
    List String :=
  rm.filterMap (fun p => match p.2 with
    | some i => if added.contains i then some p.1 else none
    | none => none)

/-- The summary string built at the end of `addUsersToSidebarGroup`.  Note
that the per-recipient add failures are not part of it: only the
resolution failures are listed. -/
def addSummary (name : String) (addedCount : Nat) (succ faileds : List String) :
    String :=
  let r0 := "✅ Added " ++ toString addedCount ++ " member(s) to \"" ++ name ++ "\""
  let r1 := if succ.length > 0 then r0 ++ "\n\nAdded: " ++ joinComma succ else r0
  if faileds.length > 0
  then r1 ++ "\n\nFailed to resolve: " ++ joinComma faileds ++ resolveHintText
  else r1

/-- Embedding of `addUsersToSidebarGroup` (`sidebarGroups.ts`).  Checks
client/group/creator/mentions, resolves the tokens, syncs and locates the
group, runs the member-add loop, stores the updated member list, then
notifies the group when anything was added (the internal list of
per-recipient add failures is computed by the loop but never used in the
response, exactly as in the source). -/
def addUsersToSidebarGroup (env : AddEnv) (groupId : String)
    (mentions : List String) (requesterInboxId : String)
    (groups : List (String × SidebarGroup)) : OpResult :=
  if env.clientInit = false then ⟨groups, [], notInitializedMsg⟩ else
  match List.lookup groupId groups with
  | none => ⟨groups, [], joinNotFoundLocal⟩
  | some data =>
    if data.createdBy ≠ requesterInboxId then ⟨groups, [], addNotCreatorMsg⟩
    else if mentions.length = 0 then ⟨groups, [], addNoMentionsMsg⟩
    else
      let rmtr := resolveUsernamesToInboxIds env.resolve mentions
      let vf := collectResolved rmtr.1
      if vf.1.length = 0 then ⟨groups, rmtr.2, addNoResolvedMsg vf.2⟩
      else
        match env.syncRes with
        | .error _ => ⟨groups, rmtr.2 ++ [.sync], addCatchMsg⟩
        | .ok _ =>
          if env.listed = false
          then ⟨groups, rmtr.2 ++ [.sync, .listConvos], joinNotFoundList⟩
          else
            let afl := addLoop env.addRes groupId vf.1
            let data2 := { data with members := data.members ++ afl.1 }
            let st2 := mapSet groupId data2 groups
            let trAll := rmtr.2 ++ [.sync, .listConvos] ++ afl.2.2
            if afl.1.length > 0 then
              match env.notifyRes with
              | .error _ =>
                ⟨st2, trAll ++ [.sendText groupId
                  (notifyText afl.1.length data.name afl.1)], addCatchMsg⟩
              | .ok _ =>
                ⟨st2, trAll ++ [.sendText groupId
                  (notifyText afl.1.length data.name afl.1)],
                 addSummary data.name afl.1.length (successNames rmtr.1 afl.1) vf.2⟩
            else
              ⟨st2, trAll,
               addSummary data.name afl.1.length (successNames rmtr.1 afl.1) vf.2⟩

/-- C2: a caller that is not the stored creator of an existing group gets
the authorization failure back, with no remote call of any kind performed
and the group table returned unchanged. -/
theorem claim_C2_add_authz (env : AddEnv) (gid : String) (mentions : List String)
    (requester : String) (groups : List (String × SidebarGroup))
    (data : SidebarGroup)
    (hinit : env.clientInit = true)
    (hfound : List.lookup gid groups = some data)
    (hneq : data.createdBy ≠ requester) :
    addUsersToSidebarGroup env gid mentions requester groups =
      ⟨groups, [], addNotCreatorMsg⟩ := by
  simp [addUsersToSidebarGroup, hinit, hfound, hneq]

/-- C2 witness at concrete inputs. -/
theorem claim_C2_add_authz_witness :
    addUsersToSidebarGroup
      ⟨true, fun _ => .ok none, .ok (), true, fun _ => .ok (), .ok ()⟩
      "g1" ["alice"] "u2" [("g1", ⟨"g1", "Team", "orig", "u1", 0, ["u1"]⟩)] =
      ⟨[("g1", ⟨"g1", "Team", "orig", "u1", 0, ["u1"]⟩)], [], addNotCreatorMsg⟩ :=
  claim_C2_add_authz
    ⟨true, fun _ => .ok none, .ok (), true, fun _ => .ok (), .ok ()⟩
    "g1" ["alice"] "u2" [("g1", ⟨"g1", "Team", "orig", "u1", 0, ["u1"]⟩)]
    ⟨"g1", "Team", "orig", "u1", 0, ["u1"]⟩ rfl (by decide) (by decide)

/-- The resolved recipient ids `addUsersToSidebarGroup` will try to add,
as a function of the environment and mention list. -/
def resolvedIds (env : AddEnv) (mentions : List String) : List String :=
  (collectResolved (resolveUsernamesToInboxIds env.resolve mentions).1).1

/-- The mention tokens that failed to resolve. -/
def failedNames (env : AddEnv) (mentions : List String) : List String :=
  (collectResolved (resolveUsernamesToInboxIds env.resolve mentions).1).2

/-- An add-member environment whose platform rejects every recipient as a
duplicate member. -/
def dupOnlyAddRes : String → Except JsError Unit :=
  fun _ => .error ⟨some "user already in group", none⟩

/-- C10: a resolved recipient whose `addMembers` call fails with a
duplicate-membership response is counted in neither the added list nor the
failed list of the loop, and is not appended to the stored member list;
the final state appends exactly the successfully added recipients, and the
returned summary is built from that added list; consequently added plus
failed need not sum to the number of resolved recipients (last conjunct:
one resolved recipient, zero added, zero failed). -/
theorem claim_C10_dup_neither_counted (env : AddEnv) (gid : String)
    (mentions : List String) (requester u : String)
    (groups : List (String × SidebarGroup)) (data : SidebarGroup) (e : JsError)
    (hinit : env.clientInit = true)
    (hfound : List.lookup gid groups = some data)
    (hcreator : data.createdBy = requester)
    (hm : mentions.length ≠ 0)
    (hvalid : (resolvedIds env mentions).length ≠ 0)
    (hsync : env.syncRes = .ok ())
    (hlisted : env.listed = true)
    (hnotify : env.notifyRes = .ok ())
    (_hu : u ∈ resolvedIds env mentions)
    (hue : env.addRes u = .error e)
    (hdup : isDupErr e = true) :
    u ∉ (resolvedIds env mentions).filter (addOk env.addRes) ∧
    u ∉ (resolvedIds env mentions).filter (addHardFail env.addRes) ∧
    (addUsersToSidebarGroup env gid mentions requester groups).groups =
      mapSet gid
        { data with members :=
            data.members ++ (resolvedIds env mentions).filter (addOk env.addRes) }
        groups ∧
    (addUsersToSidebarGroup env gid mentions requester groups).response =
      addSummary data.name
        ((resolvedIds env mentions).filter (addOk env.addRes)).length
        (successNames (resolveUsernamesToInboxIds env.resolve mentions).1
          ((resolvedIds env mentions).filter (addOk env.addRes)))
        (failedNames env mentions) ∧
    ((addLoop dupOnlyAddRes "g" ["x"]).1.length +
      (addLoop dupOnlyAddRes "g" ["x"]).2.1.length ≠
      (["x"] : List String).length) := by
  have hvnil : (collectResolved (resolveUsernamesToInboxIds env.resolve mentions).1).1 ≠ [] := by
    intro hnil
    apply hvalid
    simp [resolvedIds, hnil]
  refine ⟨?_, ?_, ?_, ?_, by decide⟩
  · intro hmem
    rw [List.mem_filter] at hmem
    simp [addOk, hue] at hmem
  · intro hmem
    rw [List.mem_filter] at hmem
    rcases hmem with ⟨-, hpf⟩
    simp [addHardFail, hue, hdup] at hpf
  · simp [addUsersToSidebarGroup, hinit, hfound, hcreator, hm, hsync, hlisted,
      hnotify, addLoop_spec, resolvedIds, failedNames, hvnil]
    split <;> rfl
  · simp [addUsersToSidebarGroup, hinit, hfound, hcreator, hm, hsync, hlisted,
      hnotify, addLoop_spec, resolvedIds, failedNames, hvnil]
    split <;> rfl

/-- Environment used by the C10 witness: two tokens resolve to two
recipients; the platform accepts the first and rejects the second as a
duplicate member. -/
def c10Env : AddEnv :=
  ⟨true,
   fun un => if un = "alice" then .ok (some "ia")
     else if un = "bob" then .ok (some "ib") else .ok none,
   .ok (), true,
   fun i => if i = "ia" then .ok () else .error ⟨some "already a member", none⟩,
   .ok ()⟩

/-- C10 witness at concrete inputs: the duplicate recipient `ib` is not in
the added list, the stored member list gains only `ia`, and the summary
counts one member. -/
theorem claim_C10_dup_neither_counted_witness :
    "ib" ∉ (resolvedIds c10Env ["alice", "bob"]).filter (addOk c10Env.addRes) ∧
    (addUsersToSidebarGroup c10Env "g1" ["alice", "bob"] "u1"
      [("g1", ⟨"g1", "Team", "orig", "u1", 0, ["u1"]⟩)]).groups =
      [("g1", ⟨"g1", "Team", "orig", "u1", 0, ["u1", "ia"]⟩)] ∧
    (addUsersToSidebarGroup c10Env "g1" ["alice", "bob"] "u1"
      [("g1", ⟨"g1", "Team", "orig", "u1", 0, ["u1"]⟩)]).response =
      "✅ Added 1 member(s) to \"Team\"\n\nAdded: alice" := by
  have h := claim_C10_dup_neither_counted c10Env "g1" ["alice", "bob"] "u1" "ib"
    [("g1", ⟨"g1", "Team", "orig", "u1", 0, ["u1"]⟩)]
    ⟨"g1", "Team", "orig", "u1", 0, ["u1"]⟩ ⟨some "already a member", none⟩
    rfl (by decide) rfl (by decide) (by decide) rfl rfl rfl (by decide) rfl
    (by decide)
  refine ⟨h.1, ?_, ?_⟩
  · rw [h.2.2.1]
    decide
  · rw [h.2.2.2.1]
    decide

/-- Model of `String.prototype.startsWith`. -/
def jsStartsWith (s pat : String) : Bool :=
  List.isPrefixOf pat.toList s.toList

/-- Model of `String.prototype.replace` with a plain-string pattern and an
empty replacement: delete the first occurrence of the pattern. -/
def replaceOnceL (pat : List Char) : List Char → List Char
  | [] => []
  | c :: rest =>
    if pat.isPrefixOf (c :: rest) then (c :: rest).drop pat.length
    else c :: replaceOnceL pat rest

/-- Model of `String.prototype.replace` with an empty replacement. -/
def jsReplaceOnce (s pat : String) : String :=
  String.mk (replaceOnceL pat.toList s.toList)

def fallbackAckMsg : String := "Thanks for your selection!"

/-- Embedding of the intent dispatch of the main message loop
(`index.ts`): a `join_sidebar_` action id is routed to
`joinSidebarGroup`, a `decline_sidebar_` id to `declineSidebarGroup`, and
anything else gets the generic acknowledgement. -/
def dispatchIntent (env : JoinEnv) (actionId senderInboxId : String)
    (groups : List (String × SidebarGroup)) : OpResult :=
  if jsStartsWith actionId "join_sidebar_" then
    joinSidebarGroup env (jsReplaceOnce actionId "join_sidebar_")
      senderInboxId groups
  else if jsStartsWith actionId "decline_sidebar_" then
    declineSidebarGroup groups (jsReplaceOnce actionId "decline_sidebar_")
      senderInboxId
  else ⟨groups, [], fallbackAckMsg⟩

theorem jsStartsWith_append (pre suf : String) :
    jsStartsWith (pre ++ suf) pre = true := by
  rw [jsStartsWith, strToList_append]
  exact isPrefixOf_append_self pre.toList suf.toList

theorem replaceOnceL_append (c : Char) (cs rest : List Char) :
    replaceOnceL (c :: cs) ((c :: cs) ++ rest) = rest := by
  have hpre : (c :: cs).isPrefixOf (c :: (cs ++ rest)) = true :=
    isPrefixOf_append_self (c :: cs) rest
  simp only [List.cons_append, replaceOnceL, List.append_eq]
  rw [if_pos hpre]
  simp only [List.length_cons, List.drop_succ_cons]
  exact List.drop_left cs rest

theorem jsReplaceOnce_join_id (gid : String) :
    jsReplaceOnce ("join_sidebar_" ++ gid) "join_sidebar_" = gid := by
  have h1 : ("join_sidebar_" ++ gid).toList =
      "join_sidebar_".toList ++ gid.toList := strToList_append "join_sidebar_" gid
  have h2 : replaceOnceL ('j' :: "oin_sidebar_".toList)
      (('j' :: "oin_sidebar_".toList) ++ gid.toList) = gid.toList :=
    replaceOnceL_append 'j' "oin_sidebar_".toList gid.toList
  show String.mk (replaceOnceL "join_sidebar_".toList
    ("join_sidebar_" ++ gid).toList) = gid
  rw [h1]
  exact (congrArg String.mk h2).trans rfl

/-- C8: a successful group-origin creation sends the structured invitation
— whose two action ids are exactly `join_sidebar_<id>` and
`decline_sidebar_<id>` — to the originating conversation; a later click
whose action id is `join_sidebar_<id>` is dispatched to the join
operation, which appends the clicking user to the stored member list and
returns a confirmation containing the literal group name. -/
theorem claim_C8_end_to_end (cenv : CreateEnv) (jenv : JoinEnv)
    (gname u1 u2 orig : String) (now : Int)
    (groups : List (String × SidebarGroup)) (gid : String)
    (hcinit : cenv.clientInit = true) (hcreate : cenv.createRes = .ok gid)
    (hwelcome : cenv.welcomeRes = .ok ()) (hreply : cenv.replyRes = .ok ())
    (hjinit : jenv.clientInit = true) (hjsync : jenv.syncRes = .ok ())
    (hjlist : jenv.listed = true) (hjadd : jenv.addRes = .ok ())
    (hjann : jenv.announceRes = .ok ()) :
    RemoteCall.sendActions orig (invitePayload gid gname) ∈
      (handleSidebarRequest cenv gname u1 orig false false now groups).trace ∧
    (invitePayload gid gname).actions.map ActionItem.id =
      ["join_sidebar_" ++ gid, "decline_sidebar_" ++ gid] ∧
    (dispatchIntent jenv ("join_sidebar_" ++ gid) u2
        (handleSidebarRequest cenv gname u1 orig false false now groups).groups).groups =
      mapSet gid ⟨gid, gname, orig, u1, now, [u1, u2]⟩
        (handleSidebarRequest cenv gname u1 orig false false now groups).groups ∧
    (dispatchIntent jenv ("join_sidebar_" ++ gid) u2
        (handleSidebarRequest cenv gname u1 orig false false now groups).groups).response =
      joinSuccessMsg gname ∧
    jsIncludes
      (dispatchIntent jenv ("join_sidebar_" ++ gid) u2
        (handleSidebarRequest cenv gname u1 orig false false now groups).groups).response
      gname = true := by
  have hgroups : (handleSidebarRequest cenv gname u1 orig false false now
      groups).groups = mapSet gid ⟨gid, gname, orig, u1, now, [u1]⟩ groups := by
    simp [handleSidebarRequest, hcinit, hcreate, hwelcome, hreply]
  have hlook : List.lookup gid
      (mapSet gid ⟨gid, gname, orig, u1, now, [u1]⟩ groups) =
      some ⟨gid, gname, orig, u1, now, [u1]⟩ := by
    rw [mapSet_lookup]
    simp
  have hdisp : ∀ X, dispatchIntent jenv ("join_sidebar_" ++ gid) u2 X =
      joinSidebarGroup jenv gid u2 X := by
    intro X
    simp [dispatchIntent, jsStartsWith_append, jsReplaceOnce_join_id]
  have hjoin : joinSidebarGroup jenv gid u2
      (mapSet gid ⟨gid, gname, orig, u1, now, [u1]⟩ groups) =
      ⟨mapSet gid ⟨gid, gname, orig, u1, now, [u1, u2]⟩
        (mapSet gid ⟨gid, gname, orig, u1, now, [u1]⟩ groups),
       [.sync, .listConvos, .addMembers gid [u2],
        .sendText gid (announceText gname u2)],
       joinSuccessMsg gname⟩ := by
    simp [joinSidebarGroup, hjinit, hlook, hjsync, hjlist, hjadd, hjann]
  have hinc : jsIncludes (joinSuccessMsg gname) gname = true :=
    jsIncludes_of_split "✅ Great! You\x27re now in \"" gname
      "\" sidebar group.\n\nYou\x27ll receive messages and can participate in this focused discussion! Check your group conversations for the new sidebar."
  refine ⟨?_, by simp [invitePayload], ?_, ?_, ?_⟩
  · by_cases hrn : needsRename cenv.currentName gname = true <;>
      simp [handleSidebarRequest, hcinit, hcreate, hwelcome, hreply, hrn]
  · rw [hgroups, hdisp, hjoin]
  · rw [hgroups, hdisp, hjoin]
  · rw [hgroups, hdisp, hjoin]
    exact hinc

/-- C8 witness at concrete inputs. -/
theorem claim_C8_end_to_end_witness :
    RemoteCall.sendActions "orig" (invitePayload "g1" "Project X") ∈
      (handleSidebarRequest ⟨true, .ok "g1", none, .ok (), .ok (), .ok (), .ok ()⟩
        "Project X" "u1" "orig" false false 0 []).trace ∧
    (invitePayload "g1" "Project X").actions.map ActionItem.id =
      ["join_sidebar_" ++ "g1", "decline_sidebar_" ++ "g1"] ∧
    (dispatchIntent ⟨true, .ok (), true, .ok (), .ok ()⟩ ("join_sidebar_" ++ "g1") "u2"
        (handleSidebarRequest ⟨true, .ok "g1", none, .ok (), .ok (), .ok (), .ok ()⟩
          "Project X" "u1" "orig" false false 0 []).groups).groups =
      mapSet "g1" ⟨"g1", "Project X", "orig", "u1", 0, ["u1", "u2"]⟩
        (handleSidebarRequest ⟨true, .ok "g1", none, .ok (), .ok (), .ok (), .ok ()⟩
          "Project X" "u1" "orig" false false 0 []).groups ∧
    (dispatchIntent ⟨true, .ok (), true, .ok (), .ok ()⟩ ("join_sidebar_" ++ "g1") "u2"
        (handleSidebarRequest ⟨true, .ok "g1", none, .ok (), .ok (), .ok (), .ok ()⟩
          "Project X" "u1" "orig" false false 0 []).groups).response =
      joinSuccessMsg "Project X" ∧
    jsIncludes
      (dispatchIntent ⟨true, .ok (), true, .ok (), .ok ()⟩ ("join_sidebar_" ++ "g1") "u2"
        (handleSidebarRequest ⟨true, .ok "g1", none, .ok (), .ok (), .ok (), .ok ()⟩
          "Project X" "u1" "orig" false false 0 []).groups).response
      "Project X" = true :=
  claim_C8_end_to_end ⟨true, .ok "g1", none, .ok (), .ok (), .ok (), .ok ()⟩
    ⟨true, .ok (), true, .ok (), .ok ()⟩ "Project X" "u1" "u2" "orig" 0 [] "g1"
    rfl rfl rfl rfl rfl rfl rfl rfl rfl

end Spinny
